import Mathlib

/-!
Shallow embedding of the miniraw capture engine (src/listener.rs,
src/settings.rs): the accept loop, filename allocation, stream copy and
finalization, plus the registry-backed discard flag.
-/

namespace Miniraw

/-- A filesystem path, as its list of components (Rust `PathBuf`). -/
abbrev Path := List String

/-- The destination base name built by `format!("{}.spl", timestamp)`
in `start_raw_listener` (listener.rs:63). -/
def splName (t : Nat) : String := toString t ++ ".spl"

example : splName 101 = "101.spl" := by decide

example : splName 101 = "101.spl" := rfl

/-- `"0.0.0.0:9100"` from listener.rs:43. -/
def bindAddrString : String := "0.0.0.0:9100"

/-- A parsed socket address (`SocketAddr` after `.parse()`). -/
structure SocketAddr where
  host : String
  port : Nat
deriving DecidableEq, Repr

/-- Split a character list at `:` separators. -/
def splitColon : List Char → List Char → List (List Char)
  | [], cur => [cur.reverse]
  | c :: rest, cur =>
    if c = ':' then cur.reverse :: splitColon rest []
    else splitColon rest (c :: cur)

/-- Decimal digit parsing for the port number. -/
def parseNatChars : List Char → Option Nat → Option Nat
  | [], acc => acc
  | c :: rest, acc =>
    if '0' ≤ c ∧ c ≤ '9' then
      parseNatChars rest (some ((acc.getD 0) * 10 + (c.toNat - '0'.toNat)))
    else none

/-- Parse `host:port`, the shape accepted at listener.rs:43. -/
def parseSocketAddr (s : String) : Option SocketAddr :=
  match splitColon s.data [] with
  | [h, p] => (parseNatChars p none).map (fun n => SocketAddr.mk (String.mk h) n)
  | _ => none

example : parseSocketAddr bindAddrString = some (SocketAddr.mk "0.0.0.0" 9100) := by decide

/-- File contents, one `Nat` per byte. -/
abbrev Bytes := List Nat

/-- The reachable filesystem state: full path ↦ current bytes. -/
abbrev FS := List (Path × Bytes)

/-- Paths of the files currently present (`Path::exists` domain). -/
def FS.paths (fs : FS) : List Path := fs.map Prod.fst

/-- `file.exists()` (listener.rs:64). -/
def FS.hasFile (fs : FS) (p : Path) : Bool := fs.any (fun qc => qc.1 == p)

/-- Contents of the file at `p`, when present (`fs::metadata` / reading back). -/
def FS.read (fs : FS) (p : Path) : Option Bytes :=
  match fs with
  | [] => none
  | (q, c) :: rest => if q = p then some c else FS.read rest p

/-- Create-or-truncate at `p` with contents `b` (`File::create` semantics). -/
def FS.setFile (fs : FS) (p : Path) (b : Bytes) : FS :=
  match fs with
  | [] => [(p, b)]
  | (q, c) :: rest => if q = p then (p, b) :: rest else (q, c) :: FS.setFile rest p b

/-- Append `b` to the file at `p` (`write_all` on an open handle). -/
def FS.appendFile (fs : FS) (p : Path) (b : Bytes) : FS :=
  match fs with
  | [] => []
  | (q, c) :: rest =>
    if q = p then (q, c ++ b) :: FS.appendFile rest p b
    else (q, c) :: FS.appendFile rest p b

/-- `Path::parent`, `None` on an empty path. -/
def parentPath (p : Path) : Option Path :=
  if p = [] then none else some p.dropLast

/-- `env::current_exe().ok().and_then(|p| p.parent().map(|p| p.to_owned())).unwrap_or_else(|| PathBuf::new())` (listener.rs:59-62). -/
def destDir (currentExe : Option Path) : Path :=
  (currentExe.bind parentPath).getD []

/-- `filename.components().last().unwrap().as_os_str().to_string_lossy()` (listener.rs:82-86). -/
def baseName (p : Path) : String := (p.getLast?).getD ""

/-- Filesystem operations a session can issue. The vocabulary includes the
atomic exclusive create and the delete that the specification talks about,
so statements about their presence in a trace are expressible; the embedded
code below emits only the operations listener.rs actually performs. -/
inductive FsOp where
  | existsCheck (p : Path)
  | createTruncate (p : Path)
  | createExclusive (p : Path)
  | writeBytes (p : Path) (b : Bytes)
  | deleteFile (p : Path)
deriving DecidableEq, Repr

/-- The filename-allocation loop (listener.rs:58-69): check `file.exists()`
on `<timestamp>.spl`; if present, increment the timestamp and retry.
Returns the issued existence checks and the chosen path; `fuel` bounds the
unbounded source loop, `none` meaning the bound was hit. -/
def allocLoop (fs : FS) (currentExe : Option Path) (t : Nat) :
    Nat → List FsOp × Option Path
  | 0 => ([], none)
  | fuel + 1 =>
    let file := destDir currentExe ++ [splName t]
    if fs.hasFile file then
      let rest := allocLoop fs currentExe (t + 1) fuel
      (FsOp.existsCheck file :: rest.1, rest.2)
    else ([FsOp.existsCheck file], some file)

/-- Severity of a log line. -/
inductive LogLevel where
  | info
  | warn
deriving DecidableEq, Repr

/-- The log lines the listener emits, in structured form. -/
inductive LogEvent where
  | started
  | incoming (peer : String)
  | saved (bytes : Nat) (base : String)
  | ioError (msg : String)
deriving DecidableEq, Repr

/-- `info!` vs `warn!` level of each emitted line. -/
def LogEvent.level : LogEvent → LogLevel
  | .started => .info
  | .incoming _ => .info
  | .saved _ _ => .info
  | .ioError _ => .warn

/-- `FileStream::CHUNK_SIZE` (listener.rs:18). -/
def CHUNK_SIZE : Nat := 32768

/-- One accepted connection, as the capture task observes it:
the `peer_addr()` result, whether `File::create` fails, the successful
`poll_read` chunks, and an optional terminal read error (`none` = EOF). -/
structure ConnInput where
  peer : Option String
  createErr : Option String
  chunks : List Bytes
  readErr : Option String
deriving DecidableEq, Repr

/-- `FileStream::poll` (listener.rs:32-39) yields chunks read into the
32768-byte buffer, so every delivered chunk is nonempty and at most
`CHUNK_SIZE` long. -/
def ConnInput.wf (c : ConnInput) : Prop :=
  ∀ ch ∈ c.chunks, 0 < ch.length ∧ ch.length ≤ CHUNK_SIZE

instance (c : ConnInput) : Decidable c.wf := by
  unfold ConnInput.wf
  infer_instance

/-- The `fold` over the file handle (listener.rs:73-75): `write_all` each
chunk in order. -/
def writeChunks (fs : FS) (p : Path) (chunks : List Bytes) : FS :=
  chunks.foldl (fun acc ch => FS.appendFile acc p ch) fs

/-- Outcome of one session: `panicked` models the `unwrap` on
`peer_addr()` blowing up; `ran` carries the final filesystem, the log
lines emitted, the filesystem operations issued, and the `io::Error`
the session future resolves with, if any. -/
inductive SessionOut where
  | panicked
  | ran (fs : FS) (log : List LogEvent) (ops : List FsOp) (err : Option String)
deriving DecidableEq, Repr

/-- The body of the `for_each` closure (listener.rs:48-92): log the peer
(unwrapping `peer_addr()`), allocate a filename, `File::create` it,
stream-copy the chunks, then either log `Saved <metadata len> bytes into
<base name>` on success or `warn!` the error. `none` = allocation fuel
exhausted. -/
def handleConn (fs : FS) (currentExe : Option Path) (t : Nat) (c : ConnInput)
    (fuel : Nat) : Option SessionOut :=
  match c.peer with
  | none => some .panicked
  | some peer =>
    match allocLoop fs currentExe t fuel with
    | (_, none) => none
    | (allocOps, some path) =>
      match c.createErr with
      | some e => some (.ran fs [.incoming peer, .ioError e] allocOps (some e))
      | none =>
        let fs1 := FS.setFile fs path []
        let fs2 := writeChunks fs1 path c.chunks
        let ops := allocOps ++ [FsOp.createTruncate path]
          ++ c.chunks.map (FsOp.writeBytes path)
        match c.readErr with
        | some e => some (.ran fs2 [.incoming peer, .ioError e] ops (some e))
        | none =>
          let size := ((FS.read fs2 path).getD []).length
          some (.ran fs2 [.incoming peer, .saved size (baseName path)] ops none)

/-- Outcome of the whole listener future: either some session panicked the
task, or the future resolved, with the error that `for_each` propagated,
if any. -/
inductive RunOut where
  | panicked (fs : FS) (log : List LogEvent)
  | done (fs : FS) (log : List LogEvent) (err : Option String)
deriving DecidableEq, Repr

/-- Prefix earlier sessions' log lines onto a run outcome. -/
def RunOut.prependLog (l : List LogEvent) : RunOut → RunOut
  | .panicked fs log => .panicked fs (l ++ log)
  | .done fs log e => .done fs (l ++ log) e

/-- `listener.incoming().for_each(...)` (listener.rs:48-93): sessions run
sequentially; a session whose future resolves with an error makes the
`for_each` future resolve with that error, so later connections are never
handled. Each connection carries the clock second at which it is handled. -/
def runLoop (fs : FS) (currentExe : Option Path) (fuel : Nat) :
    List (Nat × ConnInput) → Option RunOut
  | [] => some (.done fs [] none)
  | (t, c) :: rest =>
    match handleConn fs currentExe t c fuel with
    | none => none
    | some .panicked => some (.panicked fs [])
    | some (.ran fs1 log _ (some e)) => some (.done fs1 log (some e))
    | some (.ran fs1 log _ none) =>
      (runLoop fs1 currentExe fuel rest).map (RunOut.prependLog log)

/-- `start_raw_listener` (listener.rs:42-98): bind `0.0.0.0:9100`, log the
start line, run the accept loop; the outer `map_err` (listener.rs:95-97)
`warn!`s whatever error the future resolved with. -/
def start_raw_listener (bindErr : Option String) (fs : FS)
    (currentExe : Option Path) (conns : List (Nat × ConnInput)) (fuel : Nat) :
    Option RunOut :=
  match bindErr with
  | some e => some (.done fs [.ioError e] (some e))
  | none =>
    (runLoop fs currentExe fuel conns).map (fun r =>
      match r with
      | .panicked fs1 log => .panicked fs1 (.started :: log)
      | .done fs1 log none => .done fs1 (.started :: log) none
      | .done fs1 log (some e) =>
        .done fs1 (.started :: (log ++ [.ioError e])) (some e))

/-- The settings object of settings.rs: one boolean behind an
`AtomicBool`. -/
structure AppSettings where
  discard_flag : Bool
deriving DecidableEq, Repr

/-- `AppSettings::load` (settings.rs:18-47): start from `false`; if
`RegOpenKeyW` succeeds and `RegQueryValueExW` for `"discard"` succeeds,
take whether the queried 32-bit value is nonzero. `keyOpenOk` is the
open result; `queryResult` is the queried DWORD when the query succeeds. -/
def AppSettings.load (keyOpenOk : Bool) (queryResult : Option Nat) : AppSettings :=
  let initial := false
  let flag :=
    if keyOpenOk then
      match queryResult with
      | some v => v != 0
      | none => initial
    else initial
  ⟨flag⟩

/-- Is this operation an existence check? -/
def isExistsCheck : FsOp → Bool
  | .existsCheck _ => true
  | _ => false

/-- Is this operation an atomic exclusive create? -/
def isExclusiveCreate : FsOp → Bool
  | .createExclusive _ => true
  | _ => false

/-- Is this operation a file deletion? -/
def isDeleteFile : FsOp → Bool
  | .deleteFile _ => true
  | _ => false

/-- The allocation discipline the specification demands of a session trace:
it creates via the filesystem's atomic exclusive-create primitive and never
issues a separate existence check. -/
def usesAtomicExclusiveCreate (ops : List FsOp) : Prop :=
  (∃ op ∈ ops, isExclusiveCreate op = true) ∧ ∀ op ∈ ops, isExistsCheck op = false

instance (ops : List FsOp) : Decidable (usesAtomicExclusiveCreate ops) := by
  unfold usesAtomicExclusiveCreate
  infer_instance

theorem FS.read_setFile (fs : FS) (p : Path) (b : Bytes) :
    FS.read (FS.setFile fs p b) p = some b := by
  induction fs with
  | nil => simp [FS.setFile, FS.read]
  | cons qc rest ih =>
    by_cases h : qc.1 = p
    · simp [FS.setFile, FS.read, h]
    · simp [FS.setFile, FS.read, h, ih]

theorem FS.read_appendFile (fs : FS) (p : Path) (b : Bytes) :
    FS.read (FS.appendFile fs p b) p = (FS.read fs p).map (fun c => c ++ b) := by
  induction fs with
  | nil => simp [FS.appendFile, FS.read]
  | cons qc rest ih =>
    obtain ⟨q, cb⟩ := qc
    by_cases h : q = p
    · subst h; simp [FS.appendFile, FS.read]
    · simp only [FS.appendFile, if_neg h, FS.read]
      exact ih

theorem FS.read_writeChunks (fs : FS) (p : Path) (chunks : List Bytes) (b : Bytes)
    (h : FS.read fs p = some b) :
    FS.read (writeChunks fs p chunks) p = some (b ++ chunks.flatten) := by
  induction chunks generalizing fs b with
  | nil => simpa [writeChunks] using h
  | cons ch chs ih =>
    have h1 : FS.read (FS.appendFile fs p ch) p = some (b ++ ch) := by
      simp [FS.read_appendFile, h]
    have := ih (FS.appendFile fs p ch) (b ++ ch) h1
    simpa [writeChunks, List.append_assoc] using this

theorem FS.hasFile_of_read (fs : FS) (p : Path) (b : Bytes)
    (h : FS.read fs p = some b) : fs.hasFile p = true := by
  induction fs with
  | nil => simp [FS.read] at h
  | cons qc rest ih =>
    obtain ⟨q, cb⟩ := qc
    by_cases hq : q = p
    · simp [FS.hasFile, hq]
    · simp only [FS.read, if_neg hq] at h
      simp [FS.hasFile] at ih ⊢
      exact Or.inr (ih h)

theorem FS.read_setFile_ne (fs : FS) (p q : Path) (b : Bytes) (hne : q ≠ p) :
    FS.read (FS.setFile fs p b) q = FS.read fs q := by
  induction fs with
  | nil => simp [FS.setFile, FS.read, Ne.symm hne]
  | cons qc rest ih =>
    obtain ⟨r, cb⟩ := qc
    by_cases hr : r = p
    · subst hr
      simp [FS.setFile, FS.read, Ne.symm hne]
    · simp [FS.setFile, FS.read, hr, ih]

theorem FS.read_appendFile_ne (fs : FS) (p q : Path) (b : Bytes) (hne : q ≠ p) :
    FS.read (FS.appendFile fs p b) q = FS.read fs q := by
  induction fs with
  | nil => simp [FS.appendFile, FS.read]
  | cons qc rest ih =>
    obtain ⟨r, cb⟩ := qc
    by_cases hr : r = p
    · subst hr
      simp [FS.appendFile, FS.read, Ne.symm hne, ih]
    · simp only [FS.appendFile, if_neg hr, FS.read]
      by_cases hq : r = q
      · simp [hq]
      · simp [hq, ih]

theorem FS.read_writeChunks_ne (fs : FS) (p q : Path) (chunks : List Bytes)
    (hne : q ≠ p) :
    FS.read (writeChunks fs p chunks) q = FS.read fs q := by
  induction chunks generalizing fs with
  | nil => simp [writeChunks]
  | cons ch chs ih =>
    have := ih (FS.appendFile fs p ch)
    simpa [writeChunks, FS.read_appendFile_ne _ _ _ _ hne] using this

theorem isExistsCheck_eq (op : FsOp) (h : isExistsCheck op = true) :
    ∃ p, op = FsOp.existsCheck p := by
  cases op <;> simp_all [isExistsCheck]

/-- Everything the allocation loop guarantees when it settles on a path:
the path failed its existence check against the filesystem snapshot, the
loop issued only existence checks (among them one for the chosen path),
and the path lives in the destination directory under `<t + k>.spl` for
the number `k` of collisions skipped. -/
theorem allocLoop_some (fs : FS) (exe : Option Path) :
    ∀ fuel t ops path, allocLoop fs exe t fuel = (ops, some path) →
      fs.hasFile path = false
      ∧ (∀ op ∈ ops, isExistsCheck op = true)
      ∧ FsOp.existsCheck path ∈ ops
      ∧ ∃ k, path = destDir exe ++ [splName (t + k)] := by
  intro fuel
  induction fuel with
  | zero => intro t ops path h; simp [allocLoop] at h
  | succ n ih =>
    intro t ops path h
    simp only [allocLoop] at h
    by_cases hc : fs.hasFile (destDir exe ++ [splName t]) = true
    · rw [if_pos hc] at h
      injection h with hr1 hr2
      have hrec : allocLoop fs exe (t + 1) n
          = ((allocLoop fs exe (t + 1) n).1, some path) := by
        rw [← hr2]
      obtain ⟨h1, h2, h3, k, hk⟩ := ih (t + 1) _ _ hrec
      subst hr1
      refine ⟨h1, ?_, List.mem_cons_of_mem _ h3,
        ⟨k + 1, by rw [hk, Nat.add_assoc, Nat.add_comm 1 k]⟩⟩
      intro op hop
      rcases List.mem_cons.mp hop with rfl | hop
      · rfl
      · exact h2 op hop
    · rw [if_neg hc] at h
      injection h with hr1 hr2
      injection hr2 with hpath
      subst hr1
      subst hpath
      refine ⟨by simpa using hc, ?_, by simp, ⟨0, by simp⟩⟩
      intro op hop
      simp at hop
      subst hop
      rfl

/-- A session whose connection closes cleanly: the file is created, all
chunks are appended in order, and the info line reports the on-disk size
and base name. -/
theorem handleConn_success (fs : FS) (exe : Option Path) (t fuel : Nat) (c : ConnInput)
    (peer : String) (ops0 : List FsOp) (path : Path)
    (hpeer : c.peer = some peer) (hcreate : c.createErr = none)
    (hread : c.readErr = none)
    (halloc : allocLoop fs exe t fuel = (ops0, some path)) :
    handleConn fs exe t c fuel
      = some (.ran (writeChunks (FS.setFile fs path []) path c.chunks)
          [.incoming peer, .saved c.chunks.flatten.length (baseName path)]
          (ops0 ++ [.createTruncate path] ++ c.chunks.map (FsOp.writeBytes path))
          none) := by
  have hr : FS.read (writeChunks (FS.setFile fs path []) path c.chunks) path
      = some c.chunks.flatten := by
    have := FS.read_writeChunks (FS.setFile fs path []) path c.chunks []
      (FS.read_setFile fs path [])
    simpa using this
  simp [handleConn, hpeer, halloc, hcreate, hread, hr]

/-- A session interrupted by a read error after some chunks were written. -/
theorem handleConn_readError (fs : FS) (exe : Option Path) (t fuel : Nat) (c : ConnInput)
    (peer : String) (e : String) (ops0 : List FsOp) (path : Path)
    (hpeer : c.peer = some peer) (hcreate : c.createErr = none)
    (hread : c.readErr = some e)
    (halloc : allocLoop fs exe t fuel = (ops0, some path)) :
    handleConn fs exe t c fuel
      = some (.ran (writeChunks (FS.setFile fs path []) path c.chunks)
          [.incoming peer, .ioError e]
          (ops0 ++ [.createTruncate path] ++ c.chunks.map (FsOp.writeBytes path))
          (some e)) := by
  simp [handleConn, hpeer, halloc, hcreate, hread]

/-- A session whose `File::create` fails: the error is logged and the
filesystem is untouched. -/
theorem handleConn_createError (fs : FS) (exe : Option Path) (t fuel : Nat)
    (c : ConnInput) (peer : String) (e : String) (ops0 : List FsOp) (path : Path)
    (hpeer : c.peer = some peer) (hcreate : c.createErr = some e)
    (halloc : allocLoop fs exe t fuel = (ops0, some path)) :
    handleConn fs exe t c fuel
      = some (.ran fs [.incoming peer, .ioError e] ops0 (some e)) := by
  simp [handleConn, hpeer, halloc, hcreate]

/-- Any completed session's operation trace is the allocation trace, possibly
followed by the truncating create and the chunk writes. -/
theorem handleConn_ran_inv (fs : FS) (exe : Option Path) (t fuel : Nat) (c : ConnInput)
    (fs1 : FS) (log : List LogEvent) (ops : List FsOp) (err : Option String)
    (h : handleConn fs exe t c fuel = some (.ran fs1 log ops err)) :
    ∃ ops0 path, allocLoop fs exe t fuel = (ops0, some path)
      ∧ (ops = ops0
        ∨ ops = ops0 ++ [FsOp.createTruncate path]
            ++ c.chunks.map (FsOp.writeBytes path)) := by
  obtain ⟨cp, cce, cch, cre⟩ := c
  cases cp with
  | none => simp [handleConn] at h
  | some peer =>
    rcases hal : allocLoop fs exe t fuel with ⟨ops0, opath⟩
    cases opath with
    | none => simp [handleConn, hal] at h
    | some path =>
      refine ⟨ops0, path, rfl, ?_⟩
      cases cce with
      | some e =>
        have heq := (handleConn_createError fs exe t fuel
          ⟨some peer, some e, cch, cre⟩ peer e ops0 path rfl rfl hal).symm.trans h
        simp at heq
        exact Or.inl heq.2.2.1.symm
      | none =>
        cases cre with
        | some e =>
          have heq := (handleConn_readError fs exe t fuel
            ⟨some peer, none, cch, some e⟩ peer e ops0 path rfl rfl rfl hal).symm.trans h
          simp at heq
          refine Or.inr ?_
          simpa using heq.2.2.1.symm
        | none =>
          have heq := (handleConn_success fs exe t fuel
            ⟨some peer, none, cch, none⟩ peer ops0 path rfl rfl rfl hal).symm.trans h
          simp at heq
          refine Or.inr ?_
          simpa using heq.2.2.1.symm

/-- A session future that resolves with an error logged exactly the
incoming line and that error (at warn level). -/
theorem handleConn_error_log (fs : FS) (exe : Option Path) (t fuel : Nat) (c : ConnInput)
    (fs1 : FS) (log : List LogEvent) (ops : List FsOp) (e : String)
    (h : handleConn fs exe t c fuel = some (.ran fs1 log ops (some e))) :
    ∃ peer, c.peer = some peer ∧ log = [.incoming peer, .ioError e] := by
  obtain ⟨cp, cce, cch, cre⟩ := c
  cases cp with
  | none => simp [handleConn] at h
  | some peer =>
    rcases hal : allocLoop fs exe t fuel with ⟨ops0, opath⟩
    cases opath with
    | none => simp [handleConn, hal] at h
    | some path =>
      refine ⟨peer, rfl, ?_⟩
      cases cce with
      | some e0 =>
        have heq := (handleConn_createError fs exe t fuel
          ⟨some peer, some e0, cch, cre⟩ peer e0 ops0 path rfl rfl hal).symm.trans h
        simp at heq
        obtain ⟨-, hlog, -, he⟩ := heq
        rw [← hlog, he]
      | none =>
        cases cre with
        | some e0 =>
          have heq := (handleConn_readError fs exe t fuel
            ⟨some peer, none, cch, some e0⟩ peer e0 ops0 path rfl rfl rfl hal).symm.trans h
          simp at heq
          obtain ⟨-, hlog, -, he⟩ := heq
          rw [← hlog, he]
        | none =>
          have heq := (handleConn_success fs exe t fuel
            ⟨some peer, none, cch, none⟩ peer ops0 path rfl rfl rfl hal).symm.trans h
          simp at heq

/-- C1 counterexample: on an empty directory at second 100, the session's
operation trace is an existence check followed by an unconditional
truncating create; no atomic exclusive create is ever issued, refuting the
claim that allocation uses the atomic exclusive-create primitive and never
a separate existence check followed by an unconditional create. -/
theorem C1_counterexample :
    handleConn [] none 100 ⟨some "p", none, [[1]], none⟩ 1
      = some (.ran [(["100.spl"], [1])]
          [.incoming "p", .saved 1 "100.spl"]
          [.existsCheck ["100.spl"], .createTruncate ["100.spl"],
            .writeBytes ["100.spl"] [1]] none)
    ∧ ¬ usesAtomicExclusiveCreate
        [.existsCheck ["100.spl"], .createTruncate ["100.spl"],
          .writeBytes ["100.spl"] [1]] := by
  decide

/-- C1 (amended): filename allocation is check-then-create, not atomic
exclusive create: every session's trace contains an existence check and no
exclusive create, and the create it performs is the truncating
`File::create`, issued only for a path whose existence check against the
allocation-time filesystem snapshot came back false — so in this
sequential model no session creates a file that was present at allocation
time, but without any atomicity against concurrent interference. -/
theorem C1_check_then_create (fs : FS) (exe : Option Path) (t fuel : Nat)
    (c : ConnInput) (fs1 : FS) (log : List LogEvent) (ops : List FsOp)
    (err : Option String)
    (h : handleConn fs exe t c fuel = some (.ran fs1 log ops err)) :
    (∃ op ∈ ops, isExistsCheck op = true)
    ∧ (∀ op ∈ ops, isExclusiveCreate op = false)
    ∧ (∀ p, FsOp.createTruncate p ∈ ops →
        fs.hasFile p = false ∧ FsOp.existsCheck p ∈ ops) := by
  obtain ⟨ops0, path, hal, hops⟩ := handleConn_ran_inv fs exe t fuel c fs1 log ops err h
  obtain ⟨hnofile, hchecks, hmem, -⟩ := allocLoop_some fs exe fuel t ops0 path hal
  rcases hops with rfl | rfl
  · refine ⟨⟨FsOp.existsCheck path, hmem, rfl⟩, ?_, ?_⟩
    · intro op hop
      obtain ⟨q, rfl⟩ := isExistsCheck_eq op (hchecks op hop)
      rfl
    · intro p hp
      simpa [isExistsCheck] using hchecks _ hp
  · refine ⟨⟨FsOp.existsCheck path,
      List.mem_append.mpr (Or.inl (List.mem_append.mpr (Or.inl hmem))), rfl⟩, ?_, ?_⟩
    · intro op hop
      rcases List.mem_append.mp hop with hop | hop
      · rcases List.mem_append.mp hop with hop | hop
        · obtain ⟨q, rfl⟩ := isExistsCheck_eq op (hchecks op hop)
          rfl
        · simp at hop
          subst hop
          rfl
      · obtain ⟨ch, -, rfl⟩ := List.mem_map.mp hop
        rfl
    · intro p hp
      rcases List.mem_append.mp hp with hp | hp
      · rcases List.mem_append.mp hp with hp | hp
        · simpa [isExistsCheck] using hchecks _ hp
        · simp at hp
          subst hp
          exact ⟨hnofile,
            List.mem_append.mpr (Or.inl (List.mem_append.mpr (Or.inl hmem)))⟩
      · obtain ⟨ch, -, hbad⟩ := List.mem_map.mp hp
        exact absurd hbad (by simp)

/-- Closed instance of `C1_check_then_create` at a concrete session. -/
theorem C1_check_then_create_witness :
    (∃ op ∈ [FsOp.existsCheck ["110.spl"], FsOp.createTruncate ["110.spl"],
        FsOp.writeBytes ["110.spl"] [2]], isExistsCheck op = true)
    ∧ (∀ op ∈ [FsOp.existsCheck ["110.spl"], FsOp.createTruncate ["110.spl"],
        FsOp.writeBytes ["110.spl"] [2]], isExclusiveCreate op = false)
    ∧ (∀ p, FsOp.createTruncate p ∈ [FsOp.existsCheck ["110.spl"],
        FsOp.createTruncate ["110.spl"], FsOp.writeBytes ["110.spl"] [2]] →
        FS.hasFile [] p = false
        ∧ FsOp.existsCheck p ∈ [FsOp.existsCheck ["110.spl"],
            FsOp.createTruncate ["110.spl"], FsOp.writeBytes ["110.spl"] [2]]) :=
  C1_check_then_create [] none 110 1 ⟨some "p", none, [[2]], none⟩
    [(["110.spl"], [2])] [.incoming "p", .saved 1 "110.spl"]
    [.existsCheck ["110.spl"], .createTruncate ["110.spl"],
      .writeBytes ["110.spl"] [2]] none (by decide)

/-- C2 counterexample: with `200.spl` already present, allocating at
second 200 yields `201.spl` — the timestamp is incremented — and not the
claimed suffixed name `200-1.spl`. -/
theorem C2_counterexample :
    allocLoop [(["200.spl"], [])] none 200 2
      = ([.existsCheck ["200.spl"], .existsCheck ["201.spl"]], some ["201.spl"])
    ∧ "201.spl" ≠ "200-1.spl" := by
  decide

/-- C2 (amended): when the base name `<t>.spl` already exists and
`<t+1>.spl` does not, a session handled at second `t` allocates
`<t+1>.spl` — the allocator retries by incrementing the timestamp, never
by appending a `-<suffix>` — writes the payload there, and leaves the
pre-existing file's contents untouched. -/
theorem C2_collision_increments_timestamp (fs : FS) (exe : Option Path)
    (t fuel : Nat) (c : ConnInput) (peer : String) (b : Bytes)
    (hpeer : c.peer = some peer) (hcreate : c.createErr = none)
    (hread : c.readErr = none)
    (hold : FS.read fs (destDir exe ++ [splName t]) = some b)
    (hnew : fs.hasFile (destDir exe ++ [splName (t + 1)]) = false) :
    ∃ fs1 log ops,
      handleConn fs exe t c (fuel + 2) = some (.ran fs1 log ops none)
      ∧ FS.read fs1 (destDir exe ++ [splName (t + 1)]) = some c.chunks.flatten
      ∧ FS.read fs1 (destDir exe ++ [splName t]) = some b := by
  have hhas : fs.hasFile (destDir exe ++ [splName t]) = true :=
    FS.hasFile_of_read fs _ b hold
  have hne : destDir exe ++ [splName t] ≠ destDir exe ++ [splName (t + 1)] := by
    intro hcontra
    rw [hcontra] at hhas
    rw [hhas] at hnew
    exact Bool.noConfusion hnew
  have hal : allocLoop fs exe t (fuel + 2)
      = ([.existsCheck (destDir exe ++ [splName t]),
          .existsCheck (destDir exe ++ [splName (t + 1)])],
        some (destDir exe ++ [splName (t + 1)])) := by
    rw [show fuel + 2 = fuel + 1 + 1 from rfl]
    simp [allocLoop, hhas, hnew]
  refine ⟨_, _, _,
    handleConn_success fs exe t (fuel + 2) c peer _ _ hpeer hcreate hread hal, ?_, ?_⟩
  · have := FS.read_writeChunks (FS.setFile fs (destDir exe ++ [splName (t + 1)]) [])
      (destDir exe ++ [splName (t + 1)]) c.chunks [] (FS.read_setFile fs _ [])
    simpa using this
  · rw [FS.read_writeChunks_ne _ _ _ _ hne, FS.read_setFile_ne _ _ _ _ hne]
    exact hold

/-- Closed instance of `C2_collision_increments_timestamp` at a concrete
second call in the same second. -/
theorem C2_collision_witness :
    ∃ fs1 log ops,
      handleConn [(["300.spl"], [9])] none 300 ⟨some "w", none, [[1, 2]], none⟩ 2
        = some (.ran fs1 log ops none)
      ∧ FS.read fs1 (destDir none ++ [splName (300 + 1)]) = some [1, 2]
      ∧ FS.read fs1 (destDir none ++ [splName 300]) = some [9] :=
  C2_collision_increments_timestamp [(["300.spl"], [9])] none 300 0
    ⟨some "w", none, [[1, 2]], none⟩ "w" [9] rfl rfl rfl (by decide) (by decide)

/-- C3 counterexample: a session that delivers zero bytes and closes
cleanly leaves the allocated file on disk (empty), emits only info-level
lines — `Saved 0 bytes` rather than a warning — and issues no delete
operation, refuting the claimed empty-file cleanup. -/
theorem C3_counterexample :
    handleConn [] none 400 ⟨some "p", none, [], none⟩ 1
      = some (.ran [(["400.spl"], [])] [.incoming "p", .saved 0 "400.spl"]
          [.existsCheck ["400.spl"], .createTruncate ["400.spl"]] none)
    ∧ FS.read [(["400.spl"], [])] ["400.spl"] = some []
    ∧ (∀ ev ∈ [LogEvent.incoming "p", LogEvent.saved 0 "400.spl"],
        ev.level = LogLevel.info)
    ∧ (∀ op ∈ [FsOp.existsCheck ["400.spl"], FsOp.createTruncate ["400.spl"]],
        isDeleteFile op = false) := by
  decide

/-- C3 (amended): a non-discarding session whose connection closes after
delivering zero bytes finalizes with the allocated destination file still
on disk, empty; the session logs `Saved 0 bytes` at info level, emits no
warning, and performs no deletion. -/
theorem C3_empty_file_remains (fs : FS) (exe : Option Path) (t fuel : Nat)
    (c : ConnInput) (peer : String) (ops0 : List FsOp) (path : Path)
    (hpeer : c.peer = some peer) (hcreate : c.createErr = none)
    (hchunks : c.chunks = []) (hread : c.readErr = none)
    (halloc : allocLoop fs exe t fuel = (ops0, some path)) :
    handleConn fs exe t c fuel
      = some (.ran (FS.setFile fs path [])
          [.incoming peer, .saved 0 (baseName path)]
          (ops0 ++ [.createTruncate path]) none)
    ∧ FS.read (FS.setFile fs path []) path = some []
    ∧ (∀ op ∈ ops0 ++ [FsOp.createTruncate path], isDeleteFile op = false)
    ∧ (∀ ev ∈ [LogEvent.incoming peer, LogEvent.saved 0 (baseName path)],
        ev.level = LogLevel.info) := by
  have hs := handleConn_success fs exe t fuel c peer ops0 path hpeer hcreate hread halloc
  rw [hchunks] at hs
  refine ⟨by simpa [writeChunks] using hs, FS.read_setFile fs path [], ?_, ?_⟩
  · intro op hop
    rcases List.mem_append.mp hop with hop | hop
    · obtain ⟨q, rfl⟩ := isExistsCheck_eq op
        ((allocLoop_some fs exe fuel t ops0 path halloc).2.1 op hop)
      rfl
    · simp at hop
      subst hop
      rfl
  · intro ev hev
    rcases List.mem_cons.mp hev with rfl | hev
    · rfl
    · simp at hev
      subst hev
      rfl

/-- Closed instance of `C3_empty_file_remains` at a concrete empty
session. -/
theorem C3_empty_file_remains_witness :
    handleConn [] none 410 ⟨some "p", none, [], none⟩ 1
      = some (.ran (FS.setFile [] ["410.spl"] [])
          [.incoming "p", .saved 0 (baseName ["410.spl"])]
          ([FsOp.existsCheck ["410.spl"]] ++ [.createTruncate ["410.spl"]]) none)
    ∧ FS.read (FS.setFile [] ["410.spl"] []) ["410.spl"] = some []
    ∧ (∀ op ∈ [FsOp.existsCheck ["410.spl"]] ++ [FsOp.createTruncate ["410.spl"]],
        isDeleteFile op = false)
    ∧ (∀ ev ∈ [LogEvent.incoming "p", LogEvent.saved 0 (baseName ["410.spl"])],
        ev.level = LogLevel.info) :=
  C3_empty_file_remains [] none 410 1 ⟨some "p", none, [], none⟩ "p"
    [FsOp.existsCheck ["410.spl"]] ["410.spl"] rfl rfl rfl rfl (by decide)

set_option maxRecDepth 10000

/-- C4: the claim says a session dispatched under `discard = true` drains
to a null sink, logs the discarded byte count, and touches no files.  The
capture task in listener.rs consults no discard flag at all — its
signature accepts none, even though main.rs passes one — so every
connection allocates and writes a file: a connection sending 1000 bytes
produces a destination file holding exactly those 1000 bytes, a
`Saved 1000 bytes` info line, and filesystem create and write operations,
never zero files and a discard log. -/
theorem C4_no_discard_path :
    handleConn [] none 500 ⟨some "p", none, [List.replicate 1000 7], none⟩ 1
      = some (.ran [(["500.spl"], List.replicate 1000 7)]
          [.incoming "p", .saved 1000 "500.spl"]
          [.existsCheck ["500.spl"], .createTruncate ["500.spl"],
            .writeBytes ["500.spl"] (List.replicate 1000 7)] none)
    ∧ FS.read [(["500.spl"], List.replicate 1000 7)] ["500.spl"]
        = some (List.replicate 1000 7)
    ∧ FS.hasFile [] ["500.spl"] = false := by
  decide

/-- C5 counterexample: after a first connection fails with a read error,
the loop resolves with that error: the second connection is never handled
— its file is absent and its acceptance line was never logged — refuting
the claim that the accept loop continues unaffected. -/
theorem C5_counterexample :
    runLoop [] none 1 [(600, ⟨some "p", none, [[5]], some "reset"⟩),
        (601, ⟨some "q", none, [[6]], none⟩)]
      = some (.done [(["600.spl"], [5])] [.incoming "p", .ioError "reset"]
          (some "reset"))
    ∧ FS.hasFile [(["600.spl"], [5])] ["601.spl"] = false
    ∧ LogEvent.incoming "q" ∉ [LogEvent.incoming "p", LogEvent.ioError "reset"] := by
  decide

/-- C5 (amended): a per-connection I/O error is logged at warn level, but
it then propagates out of the `for_each` combinator: the accept loop
terminates with that error (the outer `map_err` logging it once more) and
later connections — `rest` below, arbitrary — are never handled. -/
theorem C5_error_terminates_loop (fs : FS) (exe : Option Path) (fuel t : Nat)
    (c : ConnInput) (rest : List (Nat × ConnInput)) (fs1 : FS)
    (log : List LogEvent) (ops : List FsOp) (e : String)
    (h : handleConn fs exe t c fuel = some (.ran fs1 log ops (some e))) :
    runLoop fs exe fuel ((t, c) :: rest) = some (.done fs1 log (some e))
    ∧ LogEvent.ioError e ∈ log
    ∧ (LogEvent.ioError e).level = LogLevel.warn
    ∧ start_raw_listener none fs exe ((t, c) :: rest) fuel
        = some (.done fs1 (.started :: (log ++ [.ioError e])) (some e)) := by
  obtain ⟨peer, -, rfl⟩ := handleConn_error_log fs exe t fuel c fs1 log ops e h
  exact ⟨by simp [runLoop, h], by simp, rfl,
    by simp [start_raw_listener, runLoop, h]⟩

/-- Closed instance of `C5_error_terminates_loop` at a concrete failing
session. -/
theorem C5_error_terminates_loop_witness :
    runLoop [] none 1 [(610, ⟨some "p", none, [[5]], some "broken pipe"⟩)]
      = some (.done [(["610.spl"], [5])]
          [.incoming "p", .ioError "broken pipe"] (some "broken pipe"))
    ∧ LogEvent.ioError "broken pipe"
        ∈ [LogEvent.incoming "p", LogEvent.ioError "broken pipe"]
    ∧ (LogEvent.ioError "broken pipe").level = LogLevel.warn
    ∧ start_raw_listener none [] none
          [(610, ⟨some "p", none, [[5]], some "broken pipe"⟩)] 1
        = some (.done [(["610.spl"], [5])]
            (.started :: ([LogEvent.incoming "p", LogEvent.ioError "broken pipe"]
              ++ [.ioError "broken pipe"])) (some "broken pipe")) :=
  C5_error_terminates_loop [] none 1 610 ⟨some "p", none, [[5]], some "broken pipe"⟩
    [] [(["610.spl"], [5])] [.incoming "p", .ioError "broken pipe"]
    [.existsCheck ["610.spl"], .createTruncate ["610.spl"],
      .writeBytes ["610.spl"] [5]] "broken pipe" (by decide)

/-- C6: a non-discarding session that closes cleanly writes to the
destination file exactly the concatenation of the chunks read from the
connection — each chunk nonempty and at most `CHUNK_SIZE` bytes by the
stream's well-formedness — so the file's contents equal the payload, and
the info line records the byte count together with the file's base name. -/
theorem C6_payload_saved (fs : FS) (exe : Option Path) (t fuel : Nat)
    (c : ConnInput) (peer : String) (ops0 : List FsOp) (path : Path)
    (hwf : c.wf) (hpeer : c.peer = some peer) (hcreate : c.createErr = none)
    (hread : c.readErr = none)
    (halloc : allocLoop fs exe t fuel = (ops0, some path)) :
    ∃ fs1,
      handleConn fs exe t c fuel
        = some (.ran fs1
            [.incoming peer, .saved c.chunks.flatten.length (baseName path)]
            (ops0 ++ [.createTruncate path] ++ c.chunks.map (FsOp.writeBytes path))
            none)
      ∧ FS.read fs1 path = some c.chunks.flatten := by
  refine ⟨_,
    handleConn_success fs exe t fuel c peer ops0 path hpeer hcreate hread halloc, ?_⟩
  have := FS.read_writeChunks (FS.setFile fs path []) path c.chunks []
    (FS.read_setFile fs path [])
  simpa using this

/-- Closed instance of `C6_payload_saved`: sending exactly the five bytes
of `b"hello"` yields a file with those contents and a log recording 5 and
the base name. -/
theorem C6_payload_saved_witness :
    ∃ fs1,
      handleConn [] none 700 ⟨some "p", none, [[104, 101, 108, 108, 111]], none⟩ 1
        = some (.ran fs1 [.incoming "p", .saved 5 "700.spl"]
            [.existsCheck ["700.spl"], .createTruncate ["700.spl"],
              .writeBytes ["700.spl"] [104, 101, 108, 108, 111]] none)
      ∧ FS.read fs1 ["700.spl"] = some [104, 101, 108, 108, 111] :=
  C6_payload_saved [] none 700 1 ⟨some "p", none, [[104, 101, 108, 108, 111]], none⟩
    "p" [FsOp.existsCheck ["700.spl"]] ["700.spl"] (by decide) rfl rfl rfl (by decide)

/-- C7 counterexample: a connection whose peer address cannot be fetched
makes the handler panic — `peer_addr().unwrap()` — before anything is
handled: the session is aborted with no file and no log, and a following
connection is not reached, refuting the claimed best-effort tolerance. -/
theorem C7_counterexample :
    handleConn [] none 800 ⟨none, none, [[1]], none⟩ 1 = some SessionOut.panicked
    ∧ runLoop [] none 1 [(800, ⟨none, none, [[1]], none⟩),
        (801, ⟨some "q", none, [[6]], none⟩)] = some (.panicked [] []) := by
  decide

/-- C7 (amended): when fetching the peer address fails, the acceptance log
line's `unwrap` panics: the session is aborted before any filesystem
activity and the loop dies with it. -/
theorem C7_peer_addr_unwrap_panics (fs : FS) (exe : Option Path) (fuel t : Nat)
    (c : ConnInput) (rest : List (Nat × ConnInput)) (h : c.peer = none) :
    handleConn fs exe t c fuel = some SessionOut.panicked
    ∧ runLoop fs exe fuel ((t, c) :: rest) = some (.panicked fs []) :=
  ⟨by simp [handleConn, h], by simp [runLoop, handleConn, h]⟩

/-- Closed instance of `C7_peer_addr_unwrap_panics`. -/
theorem C7_peer_addr_unwrap_panics_witness :
    handleConn [] none 810 ⟨none, none, [], none⟩ 1 = some SessionOut.panicked
    ∧ runLoop [] none 1 [(810, ⟨none, none, [], none⟩)] = some (.panicked [] []) :=
  C7_peer_addr_unwrap_panics [] none 1 810 ⟨none, none, [], none⟩ [] rfl

/-- C8: a session interrupted by an I/O error during the stream copy logs
the error at warn level and leaves the partially written destination file
in place, holding exactly the chunks written before the error; no cleanup
operation of any kind is issued. -/
theorem C8_interrupted_copy_file_left (fs : FS) (exe : Option Path) (t fuel : Nat)
    (c : ConnInput) (peer : String) (e : String) (ops0 : List FsOp) (path : Path)
    (hpeer : c.peer = some peer) (hcreate : c.createErr = none)
    (hread : c.readErr = some e)
    (halloc : allocLoop fs exe t fuel = (ops0, some path)) :
    ∃ fs1,
      handleConn fs exe t c fuel
        = some (.ran fs1 [.incoming peer, .ioError e]
            (ops0 ++ [.createTruncate path] ++ c.chunks.map (FsOp.writeBytes path))
            (some e))
      ∧ FS.read fs1 path = some c.chunks.flatten
      ∧ (LogEvent.ioError e).level = LogLevel.warn
      ∧ (∀ op ∈ ops0 ++ [FsOp.createTruncate path]
          ++ c.chunks.map (FsOp.writeBytes path), isDeleteFile op = false) := by
  refine ⟨_,
    handleConn_readError fs exe t fuel c peer e ops0 path hpeer hcreate hread halloc,
    ?_, rfl, ?_⟩
  · have := FS.read_writeChunks (FS.setFile fs path []) path c.chunks []
      (FS.read_setFile fs path [])
    simpa using this
  · intro op hop
    rcases List.mem_append.mp hop with hop | hop
    · rcases List.mem_append.mp hop with hop | hop
      · obtain ⟨q, rfl⟩ := isExistsCheck_eq op
          ((allocLoop_some fs exe fuel t ops0 path halloc).2.1 op hop)
        rfl
      · simp at hop
        subst hop
        rfl
    · obtain ⟨ch, -, rfl⟩ := List.mem_map.mp hop
      rfl

/-- Closed instance of `C8_interrupted_copy_file_left`. -/
theorem C8_interrupted_copy_file_left_witness :
    ∃ fs1,
      handleConn [] none 820 ⟨some "p", none, [[3, 4]], some "reset"⟩ 1
        = some (.ran fs1 [.incoming "p", .ioError "reset"]
            [.existsCheck ["820.spl"], .createTruncate ["820.spl"],
              .writeBytes ["820.spl"] [3, 4]] (some "reset"))
      ∧ FS.read fs1 ["820.spl"] = some [3, 4]
      ∧ (LogEvent.ioError "reset").level = LogLevel.warn
      ∧ (∀ op ∈ [FsOp.existsCheck ["820.spl"], FsOp.createTruncate ["820.spl"],
          FsOp.writeBytes ["820.spl"] [3, 4]], isDeleteFile op = false) :=
  C8_interrupted_copy_file_left [] none 820 1 ⟨some "p", none, [[3, 4]], some "reset"⟩
    "p" "reset" [FsOp.existsCheck ["820.spl"]] ["820.spl"] rfl rfl rfl (by decide)

/-- C9 counterexample: on collision the allocator does not produce a
`<timestamp>-<n>.spl` name: with `900.spl` present, allocation at second
900 chooses `901.spl`, which is not `900-1.spl` and contains no suffix
separator at all. -/
theorem C9_counterexample :
    (allocLoop [(["900.spl"], [])] none 900 2).2 = some ["901.spl"]
    ∧ "901.spl" ≠ "900-1.spl"
    ∧ ("901.spl".data.contains '-') = false := by
  decide

/-- C9 (amended): the listener binds the wildcard endpoint 0.0.0.0 on
fixed port 9100, and every allocated destination lives in the directory
derived from the running executable's path under the non-configurable
name `<unix-seconds + k>.spl`, where the base timestamp is captured when
the connection is handled and `k` counts the collisions skipped by
incrementing the timestamp; the chosen name never belongs to an existing
file. -/
theorem C9_endpoint_and_naming (fs : FS) (exe : Option Path) (t fuel : Nat)
    (ops : List FsOp) (path : Path)
    (h : allocLoop fs exe t fuel = (ops, some path)) :
    parseSocketAddr bindAddrString = some (SocketAddr.mk "0.0.0.0" 9100)
    ∧ ∃ k, path = destDir exe ++ [splName (t + k)]
        ∧ baseName path = splName (t + k)
        ∧ fs.hasFile path = false := by
  obtain ⟨h1, -, -, k, hk⟩ := allocLoop_some fs exe fuel t ops path h
  refine ⟨by decide, k, hk, ?_, h1⟩
  rw [hk]
  simp [baseName]

/-- Closed instance of `C9_endpoint_and_naming`. -/
theorem C9_endpoint_and_naming_witness :
    parseSocketAddr bindAddrString = some (SocketAddr.mk "0.0.0.0" 9100)
    ∧ ∃ k, ["910.spl"] = destDir none ++ [splName (910 + k)]
        ∧ baseName ["910.spl"] = splName (910 + k)
        ∧ FS.hasFile [] ["910.spl"] = false :=
  C9_endpoint_and_naming [] none 910 1 [FsOp.existsCheck ["910.spl"]] ["910.spl"]
    (by decide)

/-- C10: `AppSettings::load` yields a settings object whose discard flag
is true exactly when the registry key opened successfully, the `"discard"`
value query succeeded, and the queried 32-bit value is nonzero; in every
failure combination the flag keeps its default `false`. -/
theorem C10_discard_flag_load (keyOpenOk : Bool) (queryResult : Option Nat) :
    (AppSettings.load keyOpenOk queryResult).discard_flag = true
      ↔ keyOpenOk = true ∧ ∃ v, queryResult = some v ∧ v ≠ 0 := by
  cases keyOpenOk <;> rcases queryResult with - | v <;>
    simp [AppSettings.load]

end Miniraw
